import Mathlib

/-!
# Lead-management backend: query translation and analytics aggregation

Shallow embedding of the lead controllers of the repository
(`getLeads`, `getLeadById`, `getAnalytics` in `lead.controller`, the zod
schemas in `lead.validation`) over an explicit record store modelled as a
list of `Lead` records.  The record store is external (Prisma/MongoDB); its
read operations (`count`, `findMany`, `findUnique`, `aggregate`, `groupBy`)
are modelled as state-passing functions on the store so that the read-only
character of every endpoint is visible in the types.
-/

set_option linter.unusedVariables false

namespace LeadMgmt

/-- The seven pipeline stages of `LeadStageEnum` in `lead.validation`. -/
inductive LeadStage where
  | NEW | CONTACTED | QUALIFIED | PROPOSAL | NEGOTIATION | CLOSED_WON | CLOSED_LOST
deriving DecidableEq

/-- The four statuses of `LeadStatusEnum` in `lead.validation`. -/
inductive LeadStatus where
  | ACTIVE | INACTIVE | CONVERTED | REJECTED
deriving DecidableEq

/-- A lead record, following the Lead entity of the data model: monetary
`value` is modelled as an exact rational, timestamps as integers. -/
structure Lead where
  id : String
  firstName : String
  lastName : String
  email : String
  phone : String
  company : String
  position : String
  stage : LeadStage
  status : LeadStatus
  source : String
  value : ℚ
  notes : Option String
  assignedTo : Option String
  country : String
  city : String
  createdAt : Int
  updatedAt : Int
deriving DecidableEq

/-- Sort direction (`sortOrder: 'asc' | 'desc'`). -/
inductive SortOrder where
  | asc | desc
deriving DecidableEq

/-- A validated list query (`LeadQueryInput` after zod validation):
`page` and `limit` already coerced to numbers. -/
structure LeadQuery where
  search : Option String
  stage : Option LeadStage
  status : Option LeadStatus
  source : Option String
  country : Option String
  sortBy : String
  sortOrder : SortOrder
  page : Nat
  limit : Nat
deriving DecidableEq

/-! ## Case-insensitive substring containment

Models Prisma's `{ contains: term, mode: 'insensitive' }` predicate. -/

/-- `startsWithChars needle hay` is true when `needle` is an initial
segment of `hay`. -/
def startsWithChars : List Char → List Char → Bool
  | [], _ => true
  | _ :: _, [] => false
  | a :: as, b :: bs => a == b && startsWithChars as bs

/-- `containsChars needle hay` is true when `needle` occurs contiguously
somewhere in `hay`. -/
def containsChars (needle : List Char) : List Char → Bool
  | [] => needle.isEmpty
  | c :: rest => startsWithChars needle (c :: rest) || containsChars needle rest

/-- The characters of a string, lowercased. -/
def lowerChars (s : String) : List Char :=
  s.toList.map Char.toLower

/-- Case-insensitive substring test: does `hay` contain `needle`, ignoring
case?  This is the semantics of `contains` with `mode: 'insensitive'`. -/
def ciContains (hay needle : String) : Bool :=
  containsChars (lowerChars needle) (lowerChars hay)

/-! ## The `where` filter built by `getLeads`

`getLeads` builds the filter dynamically, guarded by JavaScript truthiness:
`if (search) ...`, `if (stage) ...` and so on.  For an optional string
parameter, truthiness means "present and non-empty"; for the enum
parameters every value is a non-empty string, so truthiness means
"present". -/

/-- The `where.OR` disjunction added when `search` is truthy: the term must
occur (case-insensitively) in at least one of the five text fields. -/
def searchMatches (term : String) (l : Lead) : Bool :=
  ciContains l.firstName term || ciContains l.lastName term ||
    ciContains l.email term || ciContains l.company term ||
    ciContains l.phone term

/-- Search component of the filter: `if (search) where.OR = [...]`.
An absent or empty `search` adds no constraint. -/
def searchOk (search : Option String) (l : Lead) : Bool :=
  match search with
  | none => true
  | some s => if s.isEmpty then true else searchMatches s l

/-- Equality filter for an optional enum parameter (`stage`, `status`):
`if (stage) where.stage = stage`. -/
def enumEqOk {α : Type} [DecidableEq α] (v : Option α) (x : α) : Bool :=
  match v with
  | none => true
  | some a => decide (x = a)

/-- Equality filter for an optional free-text parameter (`source`,
`country`): `if (source) where.source = source`.  An empty string is falsy
and adds no constraint. -/
def strEqOk (v : Option String) (x : String) : Bool :=
  match v with
  | none => true
  | some s => if s.isEmpty then true else decide (x = s)

/-- A record satisfies the `where` object built by `getLeads`: the search
disjunction (when added) AND every added equality filter. -/
def matchesWhere (q : LeadQuery) (l : Lead) : Bool :=
  searchOk q.search l &&
    enumEqOk q.stage l.stage &&
    enumEqOk q.status l.status &&
    strEqOk q.source l.source &&
    strEqOk q.country l.country

/-! ## The record store and its read operations

The store is a list of leads.  Each operation returns its result together
with the (unchanged) store, making the frame condition of the read-only
endpoints a statement about these functions. -/

/-- The Lead collection of the record store. -/
abbrev RecordStore : Type := List Lead

/-- `prisma.lead.count({ where })`. -/
def storeCountWhere (p : Lead → Bool) (s : RecordStore) : Nat × RecordStore :=
  ((List.filter p s).length, s)

/-- The single-key ordering the store applies for
`orderBy { [sortBy]: sortOrder }`.  The concrete comparator is
store-dependent, so the embedding is parametrised by a comparator `le`;
`List.insertionSort` realises "the filtered records, sorted". -/
def sortLeads (le : Lead → Lead → Bool) (l : List Lead) : List Lead :=
  List.insertionSort (fun a b => le a b = true) l

/-- `prisma.lead.findMany({ where, skip, take, orderBy })`: filter, sort,
skip the offset, take at most `take` records. -/
def storeFindMany (p : Lead → Bool) (le : Lead → Lead → Bool)
    (skip take : Nat) (s : RecordStore) : List Lead × RecordStore :=
  ((((sortLeads le (List.filter p s)).drop skip).take take), s)

/-- `prisma.lead.findUnique({ where: { id } })`. -/
def storeFindUnique (id : String) (s : RecordStore) : Option Lead × RecordStore :=
  (List.find? (fun l => l.id == id) s, s)

/-- `prisma.lead.aggregate({ _sum: { value }, _avg: { value } })`: both are
`null` on an empty collection, otherwise the sum and the arithmetic mean. -/
def storeAggregateValue (s : RecordStore) : (Option ℚ × Option ℚ) × RecordStore :=
  ((if s.isEmpty then none else some ((s.map Lead.value).sum),
    if s.isEmpty then none else some ((s.map Lead.value).sum / (s.length : ℚ))), s)

/-- `prisma.lead.groupBy({ by: [key], _count: true })`: one `(key, count)`
entry per key value occurring in the collection. -/
def storeGroupBy {κ : Type} [DecidableEq κ] (key : Lead → κ) (s : RecordStore) :
    List (κ × Nat) × RecordStore :=
  (((s.map key).dedup.map
      (fun k => (k, (List.filter (fun l => decide (key l = k)) s).length))), s)

/-- Descending-by-count order on `(source, count)` pairs, the
`orderBy { _count: { source: 'desc' } }` of the top-sources query. -/
def cntGe (a b : String × Nat) : Prop := b.2 ≤ a.2

instance : DecidableRel cntGe := fun a b => Nat.decLe b.2 a.2

instance : IsTotal (String × Nat) cntGe := ⟨fun a b => Nat.le_total b.2 a.2⟩

instance : IsTrans (String × Nat) cntGe := ⟨fun _ _ _ h1 h2 => Nat.le_trans h2 h1⟩

/-- `prisma.lead.groupBy({ by: ['source'], _count: true, orderBy: { _count:
{ source: 'desc' } }, take: 10 })`: group by source, order descending by
count, keep the first ten groups. -/
def storeGroupBySourceTop (s : RecordStore) : List (String × Nat) × RecordStore :=
  ((List.insertionSort cntGe (storeGroupBy Lead.source s).1).take 10, s)

/-! ## The `GET /api/leads` handler -/

/-- The pagination metadata of the list response. -/
structure Pagination where
  total : Nat
  page : Nat
  limit : Nat
  totalPages : Nat
deriving DecidableEq

/-- `PaginatedResponse<Lead>`. -/
structure PaginatedResponse where
  data : List Lead
  pagination : Pagination
deriving DecidableEq

/-- `getLeads` as a state-passing function over the record store: compute
`skip = (page - 1) * limit`, build the `where` filter, issue the count and
the windowed fetch, and assemble the envelope with
`totalPages = Math.ceil(total / limit)`. -/
def getLeadsS (le : Lead → Lead → Bool) (q : LeadQuery) (s0 : RecordStore) :
    PaginatedResponse × RecordStore :=
  let skip := (q.page - 1) * q.limit
  let r1 := storeCountWhere (matchesWhere q) s0
  let r2 := storeFindMany (matchesWhere q) le skip q.limit r1.2
  ({ data := r2.1,
     pagination :=
       { total := r1.1, page := q.page, limit := q.limit,
         totalPages := ⌈(r1.1 : ℚ) / (q.limit : ℚ)⌉₊ } }, r2.2)

/-- The response of `GET /api/leads`. -/
def getLeads (le : Lead → Lead → Bool) (q : LeadQuery) (s : RecordStore) :
    PaginatedResponse :=
  (getLeadsS le q s).1

/-! ## The `GET /api/leads/:id` handler -/

/-- Outcome of the single-record lookup: the record, or the 404
`Lead not found` response. -/
inductive LeadByIdResult where
  | found (lead : Lead)
  | notFound
deriving DecidableEq

/-- `getLeadById` as a state-passing function: `findUnique` by primary key,
404 when absent. -/
def getLeadByIdS (id : String) (s0 : RecordStore) : LeadByIdResult × RecordStore :=
  let r := storeFindUnique id s0
  (match r.1 with
   | some l => LeadByIdResult.found l
   | none => LeadByIdResult.notFound, r.2)

/-- The response of `GET /api/leads/:id` (after id validation). -/
def getLeadById (id : String) (s : RecordStore) : LeadByIdResult :=
  (getLeadByIdS id s).1

/-! ## The `GET /api/leads/analytics` handler -/

/-- `AnalyticsData`: the grouped mappings are association lists, one entry
per key value present in the collection, as returned by `groupBy`. -/
structure AnalyticsData where
  totalLeads : Nat
  convertedLeads : Nat
  activeLeads : Nat
  totalValue : ℚ
  averageValue : ℚ
  leadsByStage : List (LeadStage × Nat)
  leadsByStatus : List (LeadStatus × Nat)
  leadsBySource : List (String × Nat)
deriving DecidableEq

/-- JavaScript `x || 0` applied to a nullable number: `null` and `0` are
falsy, giving `0`; any other number passes through. -/
def jsOrZero (v : Option ℚ) : ℚ :=
  match v with
  | none => 0
  | some q => if q = 0 then 0 else q

/-- `getAnalytics` as a state-passing function: the seven independent store
queries of the aggregator, issued in source order, assembled into one
response. -/
def getAnalyticsS (s0 : RecordStore) : AnalyticsData × RecordStore :=
  let r1 := storeCountWhere (fun _ => true) s0
  let r2 := storeCountWhere (fun l => decide (l.status = LeadStatus.CONVERTED)) r1.2
  let r3 := storeCountWhere (fun l => decide (l.status = LeadStatus.ACTIVE)) r2.2
  let r4 := storeAggregateValue r3.2
  let r5 := storeGroupBy Lead.stage r4.2
  let r6 := storeGroupBy Lead.status r5.2
  let r7 := storeGroupBySourceTop r6.2
  ({ totalLeads := r1.1,
     convertedLeads := r2.1,
     activeLeads := r3.1,
     totalValue := jsOrZero r4.1.1,
     averageValue := jsOrZero r4.1.2,
     leadsByStage := r5.1,
     leadsByStatus := r6.1,
     leadsBySource := r7.1 }, r7.2)

/-- The response of `GET /api/leads/analytics`. -/
def getAnalytics (s : RecordStore) : AnalyticsData :=
  (getAnalyticsS s).1

/-! ## The zod validation model (`lead.validation`)

`page` and `limit` are declared as
`z.string().transform(Number).pipe(z.number().int().positive()[.max(100)])
.optional().default(d)`: an absent value takes the string default, the
string is coerced with JavaScript `Number`, and the result must be a
(finite) integer, positive, and for `limit` at most 100.  `Number` itself
is a JavaScript builtin; it is modelled here on decimal literals (optional
sign, digits, optional fractional part, the empty string giving 0), with
every other input mapped to `none` (NaN), which `z.number()` rejects. -/

/-- Value of a list of decimal digit characters, `none` when empty or when
a non-digit occurs. -/
def parseDigitsAux : List Char → Nat → Option Nat
  | [], acc => some acc
  | c :: cs, acc =>
    if c.isDigit then parseDigitsAux cs (acc * 10 + (c.toNat - 48)) else none

/-- Unsigned decimal literal `digits [ '.' digits ]` as an exact rational. -/
def parseDecChars (cs : List Char) : Option ℚ :=
  let intPart := cs.takeWhile Char.isDigit
  let rest := cs.dropWhile Char.isDigit
  match rest with
  | [] =>
    (parseDigitsAux intPart 0).bind
      (fun n => if intPart.isEmpty then none else some (n : ℚ))
  | '.' :: frac =>
    if intPart.isEmpty && frac.isEmpty then none
    else
      (parseDigitsAux intPart 0).bind (fun n =>
        (parseDigitsAux frac 0).bind (fun f =>
          some ((n : ℚ) + (f : ℚ) / ((10 : ℚ) ^ frac.length))))
  | _ => none

/-- JavaScript `Number(s)` on the decimal-literal fragment: `""` is 0, an
optional leading sign, then an unsigned decimal literal; anything else is
NaN (`none`). -/
def jsNumber (s : String) : Option ℚ :=
  match s.toList with
  | [] => some 0
  | '-' :: rest => (parseDecChars rest).map (fun q => -q)
  | '+' :: rest => parseDecChars rest
  | cs => parseDecChars cs

/-- The `limit` field of `leadQuerySchema`: default `"10"`, coerced with
`Number`, then `z.number().int().positive().max(100)`.  `some n` is the
validated value, `none` a ValidationError. -/
def validateLimit (input : Option String) : Option Nat :=
  let s := input.getD "10"
  match jsNumber s with
  | none => none
  | some q =>
    if q.den = 1 ∧ 0 < q ∧ q ≤ 100 then some q.num.toNat else none

/-- The `page` field of `leadQuerySchema`: default `"1"`, coerced with
`Number`, then `z.number().int().positive()`. -/
def validatePage (input : Option String) : Option Nat :=
  let s := input.getD "1"
  match jsNumber s with
  | none => none
  | some q =>
    if q.den = 1 ∧ 0 < q then some q.num.toNat else none

/-- Hex digit in either case, one character class of the id pattern
`/^[a-f\d]{24}$/i`. -/
def isHexChar (c : Char) : Bool :=
  c.isDigit || ('a' ≤ c && c ≤ 'f') || ('A' ≤ c && c ≤ 'F')

/-- `leadIdSchema`: the id must match `/^[a-f\d]{24}$/i`, i.e. be exactly
24 characters, each a hex digit of either case. -/
def validObjectId (s : String) : Bool :=
  s.length = 24 && s.toList.all isHexChar

/-! ## Spec-side filter predicate

Stated from the specification's words, to be compared with the filter the
controller builds: "a record appears in results iff it satisfies the search
disjunction (when present) AND every present equality filter".  A filter is
present for `stage`/`status` exactly when the parameter is supplied, and
for the free-text parameters when the supplied string is non-empty (an
empty string adds no filter term in the controller). -/
def SpecMatches (q : LeadQuery) (l : Lead) : Prop :=
  (∀ s, q.search = some s →
    (ciContains l.firstName s = true ∨ ciContains l.lastName s = true ∨
     ciContains l.email s = true ∨ ciContains l.company s = true ∨
     ciContains l.phone s = true)) ∧
  (∀ st, q.stage = some st → l.stage = st) ∧
  (∀ st, q.status = some st → l.status = st) ∧
  (∀ s, q.source = some s → s ≠ "" → l.source = s) ∧
  (∀ s, q.country = some s → s ≠ "" → l.country = s)

/-! ## Concrete sample data

A comparator and a three-lead store used to instantiate the theorems with
hypotheses on concrete inputs. -/

/-- Ascending order on creation time, one realisation of the store's
default `orderBy { createdAt: 'desc' }` family of single-key orders. -/
def createdAtLe (a b : Lead) : Bool := decide (a.createdAt ≤ b.createdAt)

/-- Sample lead: NEW / ACTIVE. -/
def sampleLead1 : Lead :=
  { id := "507f1f77bcf86cd799439011", firstName := "Ada",
    lastName := "Lovelace", email := "ada@example.com", phone := "111",
    company := "Analytical", position := "Engineer",
    stage := LeadStage.NEW, status := LeadStatus.ACTIVE, source := "Web",
    value := 100, notes := none, assignedTo := none, country := "UK",
    city := "London", createdAt := 1, updatedAt := 1 }

/-- Sample lead: CLOSED_WON / CONVERTED. -/
def sampleLead2 : Lead :=
  { id := "507f1f77bcf86cd799439012", firstName := "Grace",
    lastName := "Hopper", email := "grace@example.com", phone := "222",
    company := "Navy", position := "Admiral",
    stage := LeadStage.CLOSED_WON, status := LeadStatus.CONVERTED,
    source := "Referral", value := 50, notes := none, assignedTo := none,
    country := "US", city := "Arlington", createdAt := 2, updatedAt := 2 }

/-- Sample lead: CLOSED_LOST / REJECTED. -/
def sampleLead3 : Lead :=
  { id := "507f1f77bcf86cd799439013", firstName := "Alan",
    lastName := "Turing", email := "alan@example.com", phone := "333",
    company := "GCHQ", position := "Scientist",
    stage := LeadStage.CLOSED_LOST, status := LeadStatus.REJECTED,
    source := "Web", value := 75, notes := none, assignedTo := none,
    country := "UK", city := "Manchester", createdAt := 3, updatedAt := 3 }

/-- A three-lead store. -/
def sampleStore : RecordStore := [sampleLead1, sampleLead2, sampleLead3]

/-- A validated query: second page, one record per page. -/
def sampleQuery : LeadQuery :=
  { search := none, stage := none, status := none, source := none,
    country := none, sortBy := "createdAt", sortOrder := SortOrder.desc,
    page := 2, limit := 1 }

/-! ## Helper lemmas -/

theorem containsChars_nil_needle (hay : List Char) : containsChars [] hay = true := by
  cases hay <;> rfl

theorem ciContains_empty (hay : String) : ciContains hay "" = true := by
  have h : lowerChars "" = [] := rfl
  unfold ciContains
  rw [h]
  exact containsChars_nil_needle _

theorem searchOk_iff (os : Option String) (l : Lead) :
    searchOk os l = true ↔
      ∀ s, os = some s →
        (ciContains l.firstName s = true ∨ ciContains l.lastName s = true ∨
         ciContains l.email s = true ∨ ciContains l.company s = true ∨
         ciContains l.phone s = true) := by
  cases os with
  | none => simp [searchOk]
  | some s =>
    by_cases hs : s.isEmpty
    · have hs' : s = "" := (String.isEmpty_iff s).mp hs
      subst hs'
      simp [searchOk, hs, ciContains_empty]
    · simp [searchOk, hs, searchMatches, Bool.or_eq_true, or_assoc]

theorem enumEqOk_iff {α : Type} [DecidableEq α] (v : Option α) (x : α) :
    enumEqOk v x = true ↔ ∀ a, v = some a → x = a := by
  cases v <;> simp [enumEqOk]

theorem strEqOk_iff (v : Option String) (x : String) :
    strEqOk v x = true ↔ ∀ s, v = some s → s ≠ "" → x = s := by
  cases v with
  | none => simp [strEqOk]
  | some s =>
    by_cases hs : s.isEmpty
    · have hs' : s = "" := (String.isEmpty_iff s).mp hs
      subst hs'
      simp [strEqOk, hs]
    · have hs' : s ≠ "" := fun h => hs ((String.isEmpty_iff s).mpr h)
      simp [strEqOk, hs, hs']

theorem matchesWhere_iff (q : LeadQuery) (l : Lead) :
    matchesWhere q l = true ↔ SpecMatches q l := by
  unfold matchesWhere SpecMatches
  simp only [Bool.and_eq_true, searchOk_iff, enumEqOk_iff, strEqOk_iff]
  tauto

theorem length_sortLeads (le : Lead → Lead → Bool) (l : List Lead) :
    (sortLeads le l).length = l.length :=
  List.length_insertionSort _ l

theorem jsOrZero_some (q : ℚ) : jsOrZero (some q) = if q = 0 then 0 else q := rfl

theorem empty_string_isEmpty : ("" : String).isEmpty = true := by decide

theorem filter_key_length_eq_count {κ : Type} [DecidableEq κ]
    (key : Lead → κ) (s : List Lead) (k : κ) :
    (List.filter (fun l => decide (key l = k)) s).length = (s.map key).count k := by
  rw [List.count_eq_countP, List.countP_map, ← List.countP_eq_length_filter]
  congr 1

/-- `Math.ceil` of an exact natural division agrees with the usual integer
formula when the divisor is positive. -/
theorem nat_ceil_cast_div (a b : Nat) (hb : 0 < b) :
    ⌈(a : ℚ) / (b : ℚ)⌉₊ = (a + b - 1) / b := by
  have hbq : (0 : ℚ) < (b : ℚ) := by exact_mod_cast hb
  apply le_antisymm
  · rw [Nat.ceil_le, div_le_iff₀ hbq]
    have h2 : a ≤ (a + b - 1) / b * b := by
      have h1 : a + b - 1 < (a + b - 1) / b * b + b := by
        have h0 : a + b - 1 < ((a + b - 1) / b + 1) * b :=
          (Nat.div_lt_iff_lt_mul hb).mp (Nat.lt_succ_self _)
        calc a + b - 1 < ((a + b - 1) / b + 1) * b := h0
          _ = (a + b - 1) / b * b + b := by ring
      revert h1
      generalize (a + b - 1) / b * b = e
      intro h1
      omega
    exact_mod_cast h2
  · rcases Nat.eq_zero_or_pos ((a + b - 1) / b) with hd | hd
    · simp [hd]
    · have hdb : (a + b - 1) / b * b ≤ a + b - 1 := Nat.div_mul_le_self _ _
      have ha : 1 ≤ a := by
        by_contra hcon
        have ha0 : a = 0 := by omega
        subst ha0
        have : (0 + b - 1) / b = 0 := Nat.div_eq_of_lt (by omega)
        omega
      have hlt : (a + b - 1) / b - 1 < ⌈(a : ℚ) / (b : ℚ)⌉₊ := by
        rw [Nat.lt_ceil, lt_div_iff₀ hbq]
        have hnat : ((a + b - 1) / b - 1) * b < a := by
          have hsub : ((a + b - 1) / b - 1) * b = (a + b - 1) / b * b - b := by
            rw [Nat.sub_mul, one_mul]
          rw [hsub]
          revert hdb
          generalize (a + b - 1) / b * b = e
          intro hdb
          omega
        exact_mod_cast hnat
      omega

/-! ## Claim theorems -/

/-- C1: a lead appears in the filtered result set iff it is in the store,
satisfies the search disjunction (case-insensitive substring match in at
least one of firstName, lastName, email, company, phone) whenever `search`
is present, and satisfies every equality filter added for `stage`,
`status`, `source`, `country`. -/
theorem lead_filter_composition (q : LeadQuery) (store : RecordStore) (l : Lead) :
    l ∈ List.filter (matchesWhere q) store ↔ l ∈ store ∧ SpecMatches q l := by
  rw [List.mem_filter, matchesWhere_iff]

/-- C2: for a valid page and limit, the list query returns exactly the
window of the filtered, sorted sequence that skips `(page - 1) * limit`
records and takes at most `limit`; its length is at most `limit`, and when
the skip offset is at or beyond the number of matching records the data
array is empty. -/
theorem lead_pagination_window (le : Lead → Lead → Bool) (q : LeadQuery)
    (store : RecordStore) (hp : 1 ≤ q.page) (hl : 1 ≤ q.limit) :
    (getLeads le q store).data.length ≤ q.limit ∧
    (getLeads le q store).data =
      ((sortLeads le (List.filter (matchesWhere q) store)).drop
        ((q.page - 1) * q.limit)).take q.limit ∧
    ((List.filter (matchesWhere q) store).length ≤ (q.page - 1) * q.limit →
      (getLeads le q store).data = []) := by
  refine ⟨?_, rfl, ?_⟩
  · show (((sortLeads le (List.filter (matchesWhere q) store)).drop
        ((q.page - 1) * q.limit)).take q.limit).length ≤ q.limit
    rw [List.length_take]
    exact min_le_left _ _
  · intro h
    have hlen : (sortLeads le (List.filter (matchesWhere q) store)).length ≤
        (q.page - 1) * q.limit := by
      rw [length_sortLeads]
      exact h
    show ((sortLeads le (List.filter (matchesWhere q) store)).drop
        ((q.page - 1) * q.limit)).take q.limit = []
    rw [List.drop_eq_nil_of_le hlen, List.take_nil]

/-- C2 witness: `page=2&limit=1` over the three-lead store returns at most
one record, namely the second one in creation order. -/
theorem lead_pagination_window_witness :
    1 ≤ sampleQuery.page ∧ 1 ≤ sampleQuery.limit ∧
    (getLeads createdAtLe sampleQuery sampleStore).data.length ≤ sampleQuery.limit ∧
    (getLeads createdAtLe sampleQuery sampleStore).data = [sampleLead2] :=
  ⟨by decide, by decide,
   (lead_pagination_window createdAtLe sampleQuery sampleStore
      (by decide) (by decide)).1,
   by decide⟩

/-- C3: `pagination.total` is the number of records matching the filter,
independent of the page window; `totalPages` is `Math.ceil(total / limit)`,
which for a positive limit is the integer formula `(total + limit - 1) /
limit`; and `totalPages = 0` iff `total = 0`. -/
theorem lead_pagination_metadata (le : Lead → Lead → Bool) (q : LeadQuery)
    (store : RecordStore) (hl : 1 ≤ q.limit) :
    (getLeads le q store).pagination.total =
      (List.filter (matchesWhere q) store).length ∧
    (getLeads le q store).pagination.totalPages =
      ⌈(((List.filter (matchesWhere q) store).length : ℚ)) / (q.limit : ℚ)⌉₊ ∧
    (getLeads le q store).pagination.totalPages =
      ((List.filter (matchesWhere q) store).length + q.limit - 1) / q.limit ∧
    ((getLeads le q store).pagination.totalPages = 0 ↔
      (getLeads le q store).pagination.total = 0) := by
  have ht : (getLeads le q store).pagination.total =
      (List.filter (matchesWhere q) store).length := rfl
  have hc : (getLeads le q store).pagination.totalPages =
      ⌈(((List.filter (matchesWhere q) store).length : ℚ)) / (q.limit : ℚ)⌉₊ := rfl
  refine ⟨ht, hc, ?_, ?_⟩
  · rw [hc, nat_ceil_cast_div _ _ hl]
  · rw [hc, ht, nat_ceil_cast_div _ _ hl, Nat.div_eq_zero_iff hl]
    omega

/-- C3 witness: over the three-lead store with `limit=1`, the metadata
equations hold; in particular `total = 3`. -/
theorem lead_pagination_metadata_witness :
    1 ≤ sampleQuery.limit ∧
    (getLeads createdAtLe sampleQuery sampleStore).pagination.total =
      (List.filter (matchesWhere sampleQuery) sampleStore).length ∧
    (getLeads createdAtLe sampleQuery sampleStore).pagination.total = 3 :=
  ⟨by decide,
   (lead_pagination_metadata createdAtLe sampleQuery sampleStore (by decide)).1,
   by decide⟩

/-- C4: the analytics response divides only when the collection is
non-empty: `averageValue = totalValue / totalLeads` when `totalLeads > 0`,
and both `averageValue` and `totalValue` are `0` when the collection is
empty. -/
theorem analytics_average_value (store : RecordStore) :
    (0 < (getAnalytics store).totalLeads →
      (getAnalytics store).averageValue =
        (getAnalytics store).totalValue / ((getAnalytics store).totalLeads : ℚ)) ∧
    ((getAnalytics store).totalLeads = 0 →
      (getAnalytics store).averageValue = 0 ∧ (getAnalytics store).totalValue = 0) := by
  have htl : (getAnalytics store).totalLeads = store.length := by
    show (List.filter (fun _ => true) store).length = store.length
    rw [List.filter_true]
  cases store with
  | nil =>
    refine ⟨fun h => absurd (htl ▸ h) (by simp), fun _ => ⟨rfl, rfl⟩⟩
  | cons x xs =>
    refine ⟨fun _ => ?_, fun h => absurd (htl ▸ h) (by simp)⟩
    have hlen0 : (((x :: xs) : List Lead).length : ℚ) ≠ 0 :=
      Nat.cast_ne_zero.mpr (by simp)
    have hav : (getAnalytics (x :: xs)).averageValue =
        jsOrZero (some ((((x :: xs) : List Lead).map Lead.value).sum /
          (((x :: xs) : List Lead).length : ℚ))) := rfl
    have htv : (getAnalytics (x :: xs)).totalValue =
        jsOrZero (some ((((x :: xs) : List Lead).map Lead.value).sum)) := rfl
    rw [hav, htv, htl, jsOrZero_some, jsOrZero_some]
    by_cases hsum : (((x :: xs) : List Lead).map Lead.value).sum = 0
    · have hdiv : (((x :: xs) : List Lead).map Lead.value).sum /
          (((x :: xs) : List Lead).length : ℚ) = 0 := by
        rw [hsum, zero_div]
      rw [if_pos hdiv, if_pos hsum, zero_div]
    · have hdiv : (((x :: xs) : List Lead).map Lead.value).sum /
          (((x :: xs) : List Lead).length : ℚ) ≠ 0 :=
        div_ne_zero hsum hlen0
      rw [if_neg hdiv, if_neg hsum]

/-- C5: `leadsBySource` has at most ten entries, is ordered descending by
count (the tie order is that of the deterministic grouping and stable sort,
so equal counts keep a fixed relative order), and every entry's count is
the number of leads with that source. -/
theorem analytics_top_sources (store : RecordStore) :
    (getAnalytics store).leadsBySource.length ≤ 10 ∧
    List.Sorted cntGe (getAnalytics store).leadsBySource ∧
    (∀ p ∈ (getAnalytics store).leadsBySource,
      (List.filter (fun l => decide (l.source = p.1)) store).length = p.2) := by
  have hlbs : (getAnalytics store).leadsBySource =
      (List.insertionSort cntGe (storeGroupBy Lead.source store).1).take 10 := rfl
  refine ⟨?_, ?_, ?_⟩
  · rw [hlbs, List.length_take]
    exact min_le_left _ _
  · rw [hlbs]
    exact List.Pairwise.sublist (List.take_sublist _ _)
      (List.sorted_insertionSort cntGe _)
  · intro p hp
    rw [hlbs] at hp
    have hp2 : p ∈ List.insertionSort cntGe (storeGroupBy Lead.source store).1 :=
      List.mem_of_mem_take hp
    have hp3 : p ∈ (storeGroupBy Lead.source store).1 :=
      (List.perm_insertionSort cntGe _).subset hp2
    simp only [storeGroupBy, List.mem_map] at hp3
    obtain ⟨k, hk, hkp⟩ := hp3
    rw [← hkp]

/-- C6: `limit` validates exactly when the string coerces to a positive
integer at most 100 (`limit=500` fails rather than being clamped), `page`
exactly when it coerces to a positive integer, and the defaults are 10
and 1. -/
theorem list_query_page_limit_validation :
    validateLimit none = some 10 ∧
    validatePage none = some 1 ∧
    validateLimit (some "500") = none ∧
    (∀ s : String, (validateLimit (some s)).isSome = true ↔
      ∃ n : Nat, jsNumber s = some (n : ℚ) ∧ 0 < n ∧ n ≤ 100) ∧
    (∀ s : String, (validatePage (some s)).isSome = true ↔
      ∃ n : Nat, jsNumber s = some (n : ℚ) ∧ 1 ≤ n) := by
  refine ⟨by decide, by decide, by decide, fun s => ?_, fun s => ?_⟩
  · simp only [validateLimit, Option.getD_some]
    cases hj : jsNumber s with
    | none => simp
    | some q =>
      by_cases hc : q.den = 1 ∧ 0 < q ∧ q ≤ 100
      · dsimp only
        rw [if_pos hc]
        obtain ⟨hd, hp, hle⟩ := hc
        have hnum : (q.num : ℚ) = q := (Rat.den_eq_one_iff q).mp hd
        have hnp : 0 < q.num := Rat.num_pos.mpr hp
        have hcast : ((q.num.toNat : ℕ) : ℚ) = q := by
          rw [← hnum]
          exact_mod_cast congrArg (fun z : ℤ => (z : ℚ)) (Int.toNat_of_nonneg hnp.le)
        have h100 : q.num ≤ (100 : ℤ) := by
          have hq100 : (q.num : ℚ) ≤ (100 : ℚ) := by
            rw [hnum]
            exact hle
          exact_mod_cast hq100
        simp only [Option.isSome_some, true_iff]
        exact ⟨q.num.toNat, by rw [hcast], by omega, by omega⟩
      · dsimp only
        rw [if_neg hc]
        simp only [Option.isSome_none, Bool.false_eq_true, false_iff]
        rintro ⟨n, hn, hnp, hnle⟩
        have hq : q = ((n : ℕ) : ℚ) := by
          injection hn
        refine hc ⟨?_, ?_, ?_⟩
        · rw [hq]
          exact Rat.den_natCast n
        · rw [hq]
          exact_mod_cast hnp
        · rw [hq]
          exact_mod_cast hnle
  · simp only [validatePage, Option.getD_some]
    cases hj : jsNumber s with
    | none => simp
    | some q =>
      by_cases hc : q.den = 1 ∧ 0 < q
      · dsimp only
        rw [if_pos hc]
        obtain ⟨hd, hp⟩ := hc
        have hnum : (q.num : ℚ) = q := (Rat.den_eq_one_iff q).mp hd
        have hnp : 0 < q.num := Rat.num_pos.mpr hp
        have hcast : ((q.num.toNat : ℕ) : ℚ) = q := by
          rw [← hnum]
          exact_mod_cast congrArg (fun z : ℤ => (z : ℚ)) (Int.toNat_of_nonneg hnp.le)
        simp only [Option.isSome_some, true_iff]
        exact ⟨q.num.toNat, by rw [hcast], by omega⟩
      · dsimp only
        rw [if_neg hc]
        simp only [Option.isSome_none, Bool.false_eq_true, false_iff]
        rintro ⟨n, hn, hnp⟩
        have hq : q = ((n : ℕ) : ℚ) := by
          injection hn
        refine hc ⟨?_, ?_⟩
        · rw [hq]
          exact Rat.den_natCast n
        · rw [hq]
          exact_mod_cast hnp

/-- `getLeadById` returns `found l` exactly when `findUnique` found `l`. -/
theorem getLeadById_found_iff (id : String) (store : RecordStore) (l : Lead) :
    getLeadById id store = LeadByIdResult.found l ↔
      List.find? (fun x => x.id == id) store = some l := by
  unfold getLeadById getLeadByIdS storeFindUnique
  cases hf : List.find? (fun x => x.id == id) store with
  | none => simp
  | some a => simp

/-- `getLeadById` returns the 404 outcome exactly when `findUnique` found
nothing. -/
theorem getLeadById_notFound_iff (id : String) (store : RecordStore) :
    getLeadById id store = LeadByIdResult.notFound ↔
      List.find? (fun x => x.id == id) store = none := by
  unfold getLeadById getLeadByIdS storeFindUnique
  cases hf : List.find? (fun x => x.id == id) store with
  | none => simp
  | some a => simp

/-- C7: the id schema accepts exactly 24-character hexadecimal strings of
either case; for a store with unique primary keys the lookup returns
`found l` iff `l` is the record with that id, and the 404 outcome iff no
record has that id. -/
theorem lead_by_id_lookup (id : String) (store : RecordStore)
    (hnd : (store.map Lead.id).Nodup) :
    (validObjectId id = true ↔
      id.length = 24 ∧ ∀ c ∈ id.toList, isHexChar c = true) ∧
    (∀ l : Lead, getLeadById id store = LeadByIdResult.found l ↔
      l ∈ store ∧ l.id = id) ∧
    (getLeadById id store = LeadByIdResult.notFound ↔
      ∀ l ∈ store, l.id ≠ id) := by
  refine ⟨?_, fun l => ?_, ?_⟩
  · simp [validObjectId, List.all_eq_true]
  · rw [getLeadById_found_iff]
    constructor
    · intro hf
      exact ⟨List.mem_of_find?_eq_some hf, by simpa using List.find?_some hf⟩
    · rintro ⟨hmem, hid⟩
      cases hf : List.find? (fun x => x.id == id) store with
      | none =>
        have hnone := List.find?_eq_none.mp hf l hmem
        simp [hid] at hnone
      | some a =>
        have hmem' : a ∈ store := List.mem_of_find?_eq_some hf
        have hida : a.id = id := by simpa using List.find?_some hf
        have hal : a = l :=
          List.inj_on_of_nodup_map hnd hmem' hmem (by rw [hida, hid])
        rw [hal]
  · rw [getLeadById_notFound_iff, List.find?_eq_none]
    simp

/-- C7 witness: in the three-lead store (distinct ids), looking up the
first sample id returns the first sample lead. -/
theorem lead_by_id_lookup_witness :
    (sampleStore.map Lead.id).Nodup ∧
    getLeadById "507f1f77bcf86cd799439011" sampleStore =
      LeadByIdResult.found sampleLead1 :=
  ⟨by decide,
   ((lead_by_id_lookup "507f1f77bcf86cd799439011" sampleStore
      (by decide)).2.1 sampleLead1).mpr (by decide)⟩

/-- C8: the `leadsByStatus` counts sum to `totalLeads`: the status groups
partition the collection read in one consistent snapshot. -/
theorem analytics_status_partition (store : RecordStore) :
    ((getAnalytics store).leadsByStatus.map Prod.snd).sum =
      (getAnalytics store).totalLeads := by
  have h1 : (getAnalytics store).leadsByStatus =
      (storeGroupBy Lead.status store).1 := rfl
  have h2 : (getAnalytics store).totalLeads = store.length := by
    show (List.filter (fun _ => true) store).length = store.length
    rw [List.filter_true]
  rw [h1, h2]
  show (((store.map Lead.status).dedup.map
      (fun k => (k, (List.filter (fun l => decide (Lead.status l = k)) store).length))).map
        Prod.snd).sum = store.length
  rw [List.map_map]
  have h4 : (store.map Lead.status).dedup.map
      (Prod.snd ∘ fun k =>
        (k, (List.filter (fun l => decide (Lead.status l = k)) store).length)) =
      (store.map Lead.status).dedup.map
        (fun k => List.count k (store.map Lead.status)) := by
    apply List.map_congr_left
    intro k hk
    exact filter_key_length_eq_count Lead.status store k
  rw [h4, List.sum_map_count_dedup_eq_length, List.length_map]

/-- C9: every in-scope endpoint leaves the Lead collection unchanged:
the store each state-passing handler returns is the store it was given. -/
theorem lead_endpoints_read_only (le : Lead → Lead → Bool) (q : LeadQuery)
    (id : String) (store : RecordStore) :
    (getLeadsS le q store).2 = store ∧
    (getLeadByIdS id store).2 = store ∧
    (getAnalyticsS store).2 = store :=
  ⟨rfl, rfl, rfl⟩

/-- C10: supplying the empty string for `search`, `source` or `country` is
falsy and adds no filter term: the response equals the response of the same
query with that parameter absent. -/
theorem empty_string_filters_ignored (le : Lead → Lead → Bool) (q : LeadQuery)
    (store : RecordStore) :
    getLeads le { q with search := some "" } store =
      getLeads le { q with search := none } store ∧
    getLeads le { q with source := some "" } store =
      getLeads le { q with source := none } store ∧
    getLeads le { q with country := some "" } store =
      getLeads le { q with country := none } store := by
  have h1 : matchesWhere { q with search := some "" } =
      matchesWhere { q with search := none } := by
    funext l
    simp [matchesWhere, searchOk, empty_string_isEmpty]
  have h2 : matchesWhere { q with source := some "" } =
      matchesWhere { q with source := none } := by
    funext l
    simp [matchesWhere, strEqOk, empty_string_isEmpty]
  have h3 : matchesWhere { q with country := some "" } =
      matchesWhere { q with country := none } := by
    funext l
    simp [matchesWhere, strEqOk, empty_string_isEmpty]
  refine ⟨?_, ?_, ?_⟩ <;>
    simp only [getLeads, getLeadsS, storeCountWhere, storeFindMany, h1, h2, h3]

end LeadMgmt
